import Mathlib

/-!
Shallow embedding of the vibe-tetris-rs simulation core
(src/tetrimino.rs, src/board.rs, src/game_state.rs).

Machine integers are modelled as `Nat`/`Int` with explicit wraparound where
Rust release-mode arithmetic can wrap: `usize`/`u64` at `2^64`, `u32` at
`2^32`, `i32` via `wrap32`.  The global RNG used by `Board` shuffling is
modelled by a `shuffle_supply` field holding the sequence of shuffle
outcomes; theorems quantify over every supply whose members are
permutations of the seven kinds.  Wall-clock time (`Instant`) does not
occur in any embedded function; the `line_clear_animation` timer is
therefore represented without its start time.
-/

namespace VibeTetris

/-- `TetriminoType` from src/tetrimino.rs. -/
inductive TetriminoType
  | I | O | T | S | Z | J | L
deriving DecidableEq, Repr

/-- `Tetrimino` from src/tetrimino.rs: `x`, `y` are `i32`, `rotation` is `usize`. -/
structure Tetrimino where
  kind : TetriminoType
  x : Int
  y : Int
  rotation : Nat
deriving DecidableEq, Repr

/-- `Tetrimino::new` from src/tetrimino.rs. -/
def Tetrimino.new (kind : TetriminoType) : Tetrimino :=
  { kind := kind, x := 0, y := 0, rotation := 0 }

/-- `Tetrimino::get_blocks` from src/tetrimino.rs: relative block
positions for the current rotation, looked up at `rotation % 4`.
(The final catch-all arm is `unreachable!()` in the source; it can never
be selected since `rotation % 4 < 4`.) -/
def Tetrimino.get_blocks (t : Tetrimino) : List (Int × Int) :=
  match t.kind, t.rotation % 4 with
  | .I, 0 => [(0, 0), (1, 0), (2, 0), (3, 0)]
  | .I, 1 => [(2, 0), (2, 1), (2, 2), (2, 3)]
  | .I, 2 => [(0, 2), (1, 2), (2, 2), (3, 2)]
  | .I, 3 => [(1, 0), (1, 1), (1, 2), (1, 3)]
  | .O, _ => [(0, 0), (1, 0), (0, 1), (1, 1)]
  | .T, 0 => [(1, 0), (0, 1), (1, 1), (2, 1)]
  | .T, 1 => [(1, 0), (1, 1), (2, 1), (1, 2)]
  | .T, 2 => [(0, 1), (1, 1), (2, 1), (1, 2)]
  | .T, 3 => [(1, 0), (0, 1), (1, 1), (1, 2)]
  | .S, 0 => [(1, 0), (2, 0), (0, 1), (1, 1)]
  | .S, 1 => [(1, 0), (1, 1), (2, 1), (2, 2)]
  | .S, 2 => [(1, 1), (2, 1), (0, 2), (1, 2)]
  | .S, 3 => [(0, 0), (0, 1), (1, 1), (1, 2)]
  | .Z, 0 => [(0, 0), (1, 0), (1, 1), (2, 1)]
  | .Z, 1 => [(2, 0), (1, 1), (2, 1), (1, 2)]
  | .Z, 2 => [(0, 1), (1, 1), (1, 2), (2, 2)]
  | .Z, 3 => [(1, 0), (0, 1), (1, 1), (0, 2)]
  | .J, 0 => [(0, 0), (0, 1), (1, 1), (2, 1)]
  | .J, 1 => [(1, 0), (2, 0), (1, 1), (1, 2)]
  | .J, 2 => [(0, 1), (1, 1), (2, 1), (2, 2)]
  | .J, 3 => [(1, 0), (1, 1), (0, 2), (1, 2)]
  | .L, 0 => [(2, 0), (0, 1), (1, 1), (2, 1)]
  | .L, 1 => [(1, 0), (1, 1), (1, 2), (2, 2)]
  | .L, 2 => [(0, 1), (1, 1), (2, 1), (0, 2)]
  | .L, 3 => [(0, 0), (1, 0), (1, 1), (1, 2)]
  | _, _ => []

/-- A board cell: `Option<TetriminoType>` from src/board.rs. -/
abbrev Cell := Option TetriminoType

/-- One board row. -/
abbrev Row := List Cell

/-- `Board` from src/board.rs. -/
structure Board where
  width : Nat
  height : Nat
  cells : List Row
deriving DecidableEq, Repr

/-- `Board::new` from src/board.rs. -/
def Board.new (width height : Nat) : Board :=
  { width := width, height := height,
    cells := List.replicate height (List.replicate width none) }

/-- `Board::is_valid_position` from src/board.rs.  Every block of the
piece must be inside `[0,width) x [0,height)` and land on an empty cell;
the bounds check precedes the cell lookup exactly as in the source. -/
def Board.is_valid_position (b : Board) (t : Tetrimino) : Bool :=
  t.get_blocks.all fun d =>
    let x := t.x + d.1
    let y := t.y + d.2
    decide (0 ≤ x) && decide (x < (b.width : Int)) &&
    decide (0 ≤ y) && decide (y < (b.height : Int)) &&
    ((b.cells.getD y.toNat []).getD x.toNat none).isNone

/-- `Board::lock_tetromino` from src/board.rs: writes the piece kind into
all four absolute cell coordinates. -/
def Board.lock_tetromino (b : Board) (t : Tetrimino) : Board :=
  { b with
    cells := t.get_blocks.foldl
      (fun cs d =>
        let x := (t.x + d.1).toNat
        let y := (t.y + d.2).toNat
        cs.set y ((cs.getD y []).set x (some t.kind)))
      b.cells }

/-- A row is full when every cell is occupied
(`row.iter().all(|cell| cell.is_some())` in src/board.rs). -/
def rowFull (r : Row) : Bool := r.all Option.isSome

/-- An empty row of the given width (`vec![None; width]`). -/
def emptyRow (w : Nat) : Row := List.replicate w none

/-- `Board::get_full_lines` from src/board.rs: indices of the fully
occupied rows, top to bottom. -/
def Board.get_full_lines (b : Board) : List Nat :=
  (List.range b.height).filter fun y => rowFull (b.cells.getD y [])

/-- The `while y > 0` loop of `Board::clear_lines` (src/board.rs):
at scan position `y`, a full row is removed and an empty row inserted at
the top (the scan position is not decremented), otherwise `y` decreases.
Row index 0 is never examined.  The loop terminates in the source because
each step removes a full row or moves the scan position up; `fuel` is an
upper bound on that step count, supplied below as `2 * height`. -/
def clearLoop (w : Nat) : Nat → List Row → Nat → Nat → List Row × Nat
  | 0, cells, _, acc => (cells, acc)
  | fuel + 1, cells, y, acc =>
    if 0 < y then
      if rowFull (cells.getD y []) then
        clearLoop w fuel (emptyRow w :: cells.eraseIdx y) y (acc + 1)
      else
        clearLoop w fuel cells (y - 1) acc
    else (cells, acc)

/-- `Board::clear_lines` from src/board.rs: returns the updated board and
the number of removed rows. -/
def Board.clear_lines (b : Board) : Board × Nat :=
  let r := clearLoop b.width (b.height + b.height) b.cells (b.height - 1) 0
  ({ b with cells := r.1 }, r.2)

/-- `Board::get_cell` from src/board.rs: `None` when out of bounds. -/
def Board.get_cell (b : Board) (x y : Nat) : Cell :=
  if y < b.height && x < b.width then (b.cells.getD y []).getD x none
  else none

/-- `2^32`, the wraparound modulus of `u32`. -/
def U32 : Nat := 4294967296

/-- `2^64`, the wraparound modulus of `u64` and `usize`. -/
def U64 : Nat := 18446744073709551616

/-- Release-mode `i32` wraparound: the representative of `n` modulo `2^32`
in `[-2^31, 2^31)`. -/
def wrap32 (n : Int) : Int := (n + 2147483648) % 4294967296 - 2147483648

/-- Wrapping `u32` subtraction `a - b` for `a, b < 2^32`. -/
def subU32 (a b : Nat) : Nat := (a + U32 - b) % U32

/-- `GameConfig` from src/config.rs, with the `enable_variable_goal` and
`enable_sound` fields that src/game_state.rs reads (present in the
revision of the config consumed by `GameState`). -/
structure GameConfig where
  board_width : Nat
  board_height : Nat
  starting_level : Nat
  lines_per_level : Nat
  enable_ghost_piece : Bool
  enable_hold : Bool
  enable_variable_goal : Bool
  enable_sound : Bool
  preview_count : Nat
  das_delay : Nat
  das_repeat : Nat
deriving DecidableEq, Repr

/-- `GameState` from src/game_state.rs.  `line_clear_animation` keeps the
pending rows and total line count; the wall-clock `start_time` of the
source struct is outside the embedded simulation core.  `shuffle_supply`
models the outputs of the global RNG consumed by `refill_bag`: its
entries are the successive shuffle results. -/
structure GameState where
  board : Board
  current_piece : Option Tetrimino
  held_piece : Option TetriminoType
  next_pieces : List TetriminoType
  score : Nat
  level : Nat
  lines_cleared : Nat
  game_over : Bool
  config : GameConfig
  bag : List TetriminoType
  lines_until_next_level : Nat
  pieces_placed : Nat
  combo_count : Nat
  back_to_back_active : Bool
  last_was_special : Bool
  line_clear_animation : Option (List Nat × Nat)
  pending_line_clear : Bool
  show_help : Bool
  shuffle_supply : List (List TetriminoType)
deriving DecidableEq, Repr

/-- The list `vec![I, O, T, S, Z, J, L]` built by `refill_bag`
(src/game_state.rs) before shuffling. -/
def allKinds : List TetriminoType := [.I, .O, .T, .S, .Z, .J, .L]

/-- `GameState::refill_bag` from src/game_state.rs: builds the seven
kinds and shuffles them.  The shuffle outcome is the next entry of
`shuffle_supply`; theorems hypothesise that every supply entry is a
permutation of `allKinds`, exactly what `shuffle` produces.  An exhausted
supply falls back to the unshuffled list (one of the possible outcomes). -/
def GameState.refill_bag (gs : GameState) : GameState :=
  match gs.shuffle_supply with
  | s :: rest => { gs with bag := s, shuffle_supply := rest }
  | [] => { gs with bag := allKinds }

/-- `preview_count.clamp(1, 6)` from `populate_next_pieces`. -/
def GameState.previewTarget (gs : GameState) : Nat :=
  min (max gs.config.preview_count 1) 6

/-- One iteration of the `while` loop in `GameState::populate_next_pieces`
(src/game_state.rs): refill the bag if it is empty, then `Vec::pop` (take
the last element) and push it onto the lookahead queue; the source's
defensive second refill runs only when the pop still found nothing. -/
def GameState.populate_step (gs : GameState) : GameState :=
  let gs1 := if gs.bag.isEmpty then gs.refill_bag else gs
  match gs1.bag.getLast? with
  | some piece =>
    { gs1 with bag := gs1.bag.dropLast, next_pieces := gs1.next_pieces ++ [piece] }
  | none =>
    let gs2 := gs1.refill_bag
    match gs2.bag.getLast? with
    | some piece =>
      { gs2 with bag := gs2.bag.dropLast, next_pieces := gs2.next_pieces ++ [piece] }
    | none => gs2

/-- The `while self.next_pieces.len() < target_count` loop of
`populate_next_pieces`.  Each executed iteration appends one piece, so
the queue needs at most `target_count ≤ 6` iterations; 7 fuel units are
always enough. -/
def GameState.populateLoop : Nat → GameState → GameState
  | 0, gs => gs
  | fuel + 1, gs =>
    if gs.next_pieces.length < gs.previewTarget then
      GameState.populateLoop fuel gs.populate_step
    else gs

/-- `GameState::populate_next_pieces` from src/game_state.rs. -/
def GameState.populate_next_pieces (gs : GameState) : GameState :=
  GameState.populateLoop 7 gs

/-- `GameState::spawn_piece` from src/game_state.rs: take the head of the
lookahead queue as the new current piece at its spawn position, refill
the queue, and set `game_over` when the spawn position is invalid. -/
def GameState.spawn_piece (gs : GameState) : GameState :=
  match gs.next_pieces.head? with
  | none => gs
  | some piece_type =>
    let gs1 := { gs with
      current_piece := some (Tetrimino.new piece_type),
      next_pieces := gs.next_pieces.tail }
    let gs2 := gs1.populate_next_pieces
    match gs2.current_piece with
    | some current =>
      if !(gs2.board.is_valid_position current) then { gs2 with game_over := true }
      else gs2
    | none => gs2

/-- The tentative translation `piece.x += dx; piece.y += dy` of
`move_piece` (src/game_state.rs), with release-mode `i32` wraparound. -/
def movedPiece (p : Tetrimino) (dx dy : Int) : Tetrimino :=
  { p with x := wrap32 (p.x + dx), y := wrap32 (p.y + dy) }

/-- `GameState::move_piece` from src/game_state.rs: tentatively translate
the current piece, revert when the result is invalid; `i32` additions
wrap in release mode. -/
def GameState.move_piece (gs : GameState) (dx dy : Int) : GameState × Bool :=
  match gs.current_piece with
  | none => (gs, false)
  | some p =>
    let p1 : Tetrimino := movedPiece p dx dy
    if !(gs.board.is_valid_position p1) then
      let p2 : Tetrimino := { p1 with x := wrap32 (p1.x - dx), y := wrap32 (p1.y - dy) }
      ({ gs with current_piece := some p2 }, false)
    else
      ({ gs with current_piece := some p1 }, true)

/-- `GameState::get_wall_kicks` from src/game_state.rs: the SRS kick
tables, keyed by `(from_rotation % 4, to_rotation % 4)`. -/
def GameState.get_wall_kicks (piece_type : TetriminoType)
    (from_rotation to_rotation : Nat) : List (Int × Int) :=
  match piece_type with
  | .I =>
    match from_rotation % 4, to_rotation % 4 with
    | 0, 1 => [(0, 0), (-2, 0), (1, 0), (-2, -1), (1, 2)]
    | 1, 0 => [(0, 0), (2, 0), (-1, 0), (2, 1), (-1, -2)]
    | 1, 2 => [(0, 0), (-1, 0), (2, 0), (-1, 2), (2, -1)]
    | 2, 1 => [(0, 0), (1, 0), (-2, 0), (1, -2), (-2, 1)]
    | 2, 3 => [(0, 0), (2, 0), (-1, 0), (2, 1), (-1, -2)]
    | 3, 2 => [(0, 0), (-2, 0), (1, 0), (-2, -1), (1, 2)]
    | 3, 0 => [(0, 0), (1, 0), (-2, 0), (1, -2), (-2, 1)]
    | 0, 3 => [(0, 0), (-1, 0), (2, 0), (-1, 2), (2, -1)]
    | _, _ => [(0, 0)]
  | .O => [(0, 0)]
  | _ =>
    match from_rotation % 4, to_rotation % 4 with
    | 0, 1 => [(0, 0), (0, -1), (-1, 0), (-1, -1)]
    | 1, 0 => [(0, 0), (0, 1), (1, 0), (1, 1)]
    | 1, 2 => [(0, 0), (0, -1), (1, 0), (1, -1)]
    | 2, 1 => [(0, 0), (0, 1), (-1, 0), (-1, 1)]
    | 2, 3 => [(0, 0), (0, -1), (-1, 0), (-1, -1)]
    | 3, 2 => [(0, 0), (0, 1), (1, 0), (1, 1)]
    | 3, 0 => [(0, 0), (0, -1), (1, 0), (1, -1)]
    | 0, 3 => [(0, 0), (0, 1), (-1, 0), (-1, 1)]
    | _, _ => [(0, 0)]

/-- The new rotation computed by `rotate_piece` (src/game_state.rs):
`old_rotation + 1` for clockwise and `old_rotation.wrapping_sub(1)` for
counter-clockwise, both on `usize` (wraparound at `2^64`), with no
reduction modulo 4. -/
def rotTarget (clockwise : Bool) (r : Nat) : Nat :=
  if clockwise then (r + 1) % U64 else (r + (U64 - 1)) % U64

/-- The candidate piece tried by the wall-kick loop of `rotate_piece` for
the offset `d`: the new rotation at `old_x + dx, old_y + dy`. -/
def kickTry (p : Tetrimino) (clockwise : Bool) (d : Int × Int) : Tetrimino :=
  { kind := p.kind, x := wrap32 (p.x + d.1), y := wrap32 (p.y + d.2),
    rotation := rotTarget clockwise p.rotation }

/-- `GameState::rotate_piece` from src/game_state.rs.  The basic rotation
at the unchanged position is tried first; on failure the wall-kick loop
assigns `old_x + dx, old_y + dy` for each table entry and keeps the
first valid one (`List.find?` is the first-success loop); if none is
valid the rotation and position are reverted. -/
def GameState.rotate_piece (gs : GameState) (clockwise : Bool) : GameState :=
  match gs.current_piece with
  | none => gs
  | some p =>
    let basic : Tetrimino := { p with rotation := rotTarget clockwise p.rotation }
    if gs.board.is_valid_position basic then
      { gs with current_piece := some basic }
    else
      let kicks := GameState.get_wall_kicks p.kind p.rotation (rotTarget clockwise p.rotation)
      match kicks.find? (fun d => gs.board.is_valid_position (kickTry p clockwise d)) with
      | some d => { gs with current_piece := some (kickTry p clockwise d) }
      | none => { gs with current_piece := some p }

/-- `GameState::hold_piece` from src/game_state.rs: no-op when hold is
disabled or there is no current piece; otherwise take the current piece,
bring back the held kind at its spawn state (or spawn from the queue when
nothing was held), and store the taken piece's kind as held. -/
def GameState.hold_piece (gs : GameState) : GameState :=
  if !gs.config.enable_hold then gs
  else
    match gs.current_piece with
    | none => gs
    | some current =>
      let gs1 := { gs with current_piece := none }
      let gs2 :=
        match gs1.held_piece with
        | some held => { gs1 with current_piece := some (Tetrimino.new held) }
        | none => gs1.spawn_piece
      { gs2 with held_piece := some current.kind }

/-- `GameState::check_tspin` from src/game_state.rs: detection is a stub
that always reports `false`. -/
def GameState.check_tspin (_gs : GameState) : Bool := false

/-- `GameState::compute_awarded_lines` from src/game_state.rs. -/
def GameState.compute_awarded_lines (_gs : GameState)
    (cleared_lines : Nat) (is_tspin : Bool) : Nat :=
  if is_tspin then
    match cleared_lines with
    | 0 => 0
    | 1 => 1
    | 2 => 2
    | 3 => 3
    | n => n
  else cleared_lines

/-- The base-score table of `update_score` (src/game_state.rs). -/
def baseScore : Nat → Nat
  | 1 => 100
  | 2 => 300
  | 3 => 500
  | 4 => 800
  | _ => 0

/-- The T-spin bonus table of `update_score` (src/game_state.rs). -/
def tspinBonusTable : Nat → Nat
  | 1 => 800
  | 2 => 1200
  | 3 => 1600
  | 4 => 2000
  | _ => 0

/-- `GameState::update_level_fixed_goal` from src/game_state.rs.
`lines_per_level - overflow` is a `u32` subtraction and `level + 1` a
`u32` increment, both wrapping in release mode. -/
def GameState.update_level_fixed_goal (gs : GameState) (lines_cleared : Nat) :
    GameState :=
  let lines_required := gs.config.lines_per_level
  if gs.lines_until_next_level ≤ lines_cleared then
    let overflow := lines_cleared - gs.lines_until_next_level
    { gs with
      lines_until_next_level := subU32 lines_required overflow,
      level := (gs.level + 1) % U32 }
  else
    { gs with lines_until_next_level := gs.lines_until_next_level - lines_cleared }

/-- `GameState::update_level_variable_goal` from src/game_state.rs.  The
source computes with `f64`; `Float` mirrors it (the final `as u32` cast
is the saturating float-to-integer conversion). -/
def GameState.update_level_variable_goal (gs : GameState) (lines_cleared : Nat)
    (is_tspin : Bool) : GameState :=
  let base_lines_per_level := gs.config.lines_per_level
  let is_special_clear := lines_cleared == 4 || is_tspin
  let efficiency_factor : Float :=
    if gs.pieces_placed > 0 then
      min (Float.ofNat gs.pieces_placed / Float.ofNat (max lines_cleared 1)) 2.0
    else 1.0
  let back_to_back_reduction : Float :=
    if gs.back_to_back_active && is_special_clear then
      max (Float.ofNat gs.level * 0.1) 0.5
    else 0.0
  let combo_reduction : Float := min (Float.ofNat gs.combo_count * 0.05) 0.5
  let adjusted_lines_needed : Nat :=
    (max (Float.ofNat base_lines_per_level * efficiency_factor
        - back_to_back_reduction - combo_reduction) 1.0).toUInt32.toNat
  if gs.lines_until_next_level ≤ lines_cleared then
    let overflow := lines_cleared - gs.lines_until_next_level
    let level_multiplier : Float := 1.0 + Float.ofNat gs.level * 0.02
    let next0 : Nat :=
      (max (Float.ofNat adjusted_lines_needed * level_multiplier) 1.0).toUInt32.toNat
    let next1 : Nat := if overflow > 0 then next0 - overflow else next0
    { gs with lines_until_next_level := next1, level := (gs.level + 1) % U32 }
  else
    { gs with lines_until_next_level := gs.lines_until_next_level - lines_cleared }

/-- `GameState::update_score` from src/game_state.rs.  A zero-line lock
resets the combo and returns; otherwise the score grows by
`(base + tspin + combo + backToBack) * level` (a `u64` addition, the
combo product a `u32` multiplication, both wrapping in release mode),
the back-to-back flag becomes this clear's special flag, the combo count
increments, and the configured leveling strategy runs. -/
def GameState.update_score (gs : GameState) (lines : Nat) : GameState :=
  if lines = 0 then
    { gs with combo_count := 0, last_was_special := false }
  else
    let is_tspin := gs.check_tspin
    let awarded_lines := gs.compute_awarded_lines lines is_tspin
    let base_score := baseScore awarded_lines
    let tspin_bonus := if is_tspin then tspinBonusTable awarded_lines else 0
    let combo_bonus :=
      if gs.combo_count > 0 then gs.combo_count * 50 % U32 else 0
    let is_special := awarded_lines == 4 || is_tspin
    let back_to_back_bonus :=
      if gs.back_to_back_active && is_special then (base_score + tspin_bonus) / 2
      else 0
    let gs1 := { gs with
      score := (gs.score +
        (base_score + tspin_bonus + combo_bonus + back_to_back_bonus) * gs.level) % U64,
      back_to_back_active := is_special,
      last_was_special := is_special,
      combo_count := (gs.combo_count + 1) % U32 }
    if gs1.config.enable_variable_goal then
      gs1.update_level_variable_goal lines is_tspin
    else
      gs1.update_level_fixed_goal lines

/-- The score increment stated by the spec for a clearing lock (the
T-spin bonus is zero because detection is stubbed to `false`):
`(base + combo_count * 50 + back-to-back bonus) * level`, with the
back-to-back bonus equal to half the base exactly for a special
(4-line) clear chained after another special clear. -/
def specScoreDelta (gs : GameState) (lines : Nat) : Nat :=
  (baseScore lines + gs.combo_count * 50 +
    (if gs.back_to_back_active = true ∧ lines = 4 then baseScore lines / 2 else 0)) *
    gs.level

/-- `n` successive `Vec::pop` calls on the bag, as performed by
`populate_next_pieces`: each pop takes the last element. -/
def bagPops : Nat → List TetriminoType → List TetriminoType
  | 0, _ => []
  | n + 1, bag =>
    match bag.getLast? with
    | some p => p :: bagPops n bag.dropLast
    | none => []

/-! Concrete fixtures used by counterexamples and witnesses. -/

/-- The default configuration of src/config.rs (fixed-goal leveling,
hold enabled). -/
def testConfig : GameConfig :=
  { board_width := 10, board_height := 20, starting_level := 1,
    lines_per_level := 10, enable_ghost_piece := false, enable_hold := true,
    enable_variable_goal := false, enable_sound := false, preview_count := 3,
    das_delay := 250, das_repeat := 50 }

/-- An empty standard board. -/
def testBoard : Board := Board.new 10 20

/-- A game state over the empty standard board with a three-piece
lookahead queue, a partially consumed bag and one queued shuffle. -/
def testState : GameState :=
  { board := testBoard, current_piece := none, held_piece := none,
    next_pieces := [.I, .O, .T], score := 0, level := 1, lines_cleared := 0,
    game_over := false, config := testConfig, bag := [.S, .Z],
    lines_until_next_level := 10, pieces_placed := 0, combo_count := 0,
    back_to_back_active := false, last_was_special := false,
    line_clear_animation := none, pending_line_clear := false,
    show_help := false, shuffle_supply := [[.L, .J, .T, .O, .I, .Z, .S]] }

/-- A T piece in the open field at rotation 3. -/
def pieceT3 : Tetrimino := { kind := .T, x := 4, y := 5, rotation := 3 }

/-- `testState` holding `pieceT3` as the current piece. -/
def gsRot3 : GameState := { testState with current_piece := some pieceT3 }

/-- A displaced, rotated T piece. -/
def pieceT2 : Tetrimino := { kind := .T, x := 5, y := 10, rotation := 2 }

/-- `testState` with a current piece and an I piece already held. -/
def gsHold : GameState :=
  { testState with current_piece := some pieceT2, held_piece := some .I }

/-! General-purpose lemmas about the embedding. -/

lemma wrap32_self (x : Int) (h1 : -2147483648 ≤ x) (h2 : x < 2147483648) :
    wrap32 x = x := by
  unfold wrap32
  omega

lemma wrap32_add_sub_self (x d : Int) (h1 : -2147483648 ≤ x)
    (h2 : x < 2147483648) : wrap32 (wrap32 (x + d) - d) = x := by
  unfold wrap32
  omega

lemma GameState.set_current_self (gs : GameState) (p : Tetrimino)
    (h : gs.current_piece = some p) :
    { gs with current_piece := some p } = gs := by
  rw [← h]

/-- `get_blocks` only depends on the rotation modulo 4. -/
lemma get_blocks_mod_four (t : Tetrimino) :
    Tetrimino.get_blocks { t with rotation := t.rotation % 4 } = t.get_blocks := by
  unfold Tetrimino.get_blocks
  rw [Nat.mod_mod_of_dvd t.rotation (dvd_refl 4)]

lemma rotTarget_true (r : Nat) : rotTarget true r = (r + 1) % U64 := by
  simp [rotTarget]

lemma rotTarget_false (r : Nat) : rotTarget false r = (r + (U64 - 1)) % U64 := by
  simp [rotTarget]

lemma rowFull_emptyRow (w : Nat) (hw : 0 < w) : rowFull (emptyRow w) = false := by
  cases w with
  | zero => omega
  | succ n => simp [emptyRow, rowFull, List.replicate_succ]

lemma getD_append_offset {α : Type} (l1 l2 : List α) (j : Nat) (d : α) :
    (l1 ++ l2).getD (l1.length + j) d = l2.getD j d := by
  rw [List.getD_eq_getElem?_getD, List.getD_eq_getElem?_getD,
    List.getElem?_append_right (Nat.le_add_right _ _), Nat.add_sub_cancel_left]

lemma countP_range_getD (cells : List Row) :
    (List.range cells.length).countP (fun y => rowFull (cells.getD y [])) =
      cells.countP (fun r => rowFull r) := by
  induction cells with
  | nil => rfl
  | cons r cs ih =>
    rw [List.length_cons, List.range_succ_eq_map, List.countP_cons,
      List.countP_map]
    have hcomp : ((fun y => rowFull ((r :: cs).getD y [])) ∘ Nat.succ) =
        (fun y => rowFull (cs.getD y [])) := by
      funext y
      simp [List.getD_cons_succ]
    rw [hcomp, ih, List.countP_cons]
    simp [List.getD_cons_zero]

/-- What the `clear_lines` scan computes when the top row is not full:
the full rows are removed (their count accumulates) and as many empty
rows are prepended. -/
lemma clearLoop_characterization (w : Nat) (hw : 0 < w) :
    ∀ (fuel : Nat) (cells : List Row) (y acc : Nat),
      y < cells.length →
      (∀ r ∈ cells.drop (y + 1), rowFull r = false) →
      rowFull (cells.headD []) = false →
      y + cells.countP (fun r => rowFull r) < fuel →
      clearLoop w fuel cells y acc =
        (List.replicate (cells.countP fun r => rowFull r) (emptyRow w) ++
            cells.filter (fun r => !rowFull r),
          acc + cells.countP fun r => rowFull r) := by
  intro fuel
  induction fuel with
  | zero =>
    intro cells y acc hy hdrop hhead hfuel
    omega
  | succ n ih =>
    intro cells y acc hy hdrop hhead hfuel
    unfold clearLoop
    by_cases hypos : 0 < y
    case neg =>
      rw [if_neg hypos]
      have hy0 : y = 0 := by omega
      subst hy0
      have hall : ∀ r ∈ cells, rowFull r = false := by
        intro r hr
        rcases cells with _ | ⟨c0, rest⟩
        · simp at hy
        · rcases List.mem_cons.mp hr with h | h
          · subst h
            simpa using hhead
          · exact hdrop r (by simpa using h)
      have hcount : cells.countP (fun r => rowFull r) = 0 :=
        List.countP_eq_zero.mpr (by intro a ha; simp [hall a ha])
      have hfilter : cells.filter (fun r => !rowFull r) = cells :=
        List.filter_eq_self.mpr (by intro a ha; simp [hall a ha])
      rw [hcount, hfilter]
      simp
    case pos =>
      rw [if_pos hypos]
      have hgetD : cells.getD y [] = cells[y] := List.getD_eq_getElem cells [] hy
      have hdropy : cells.drop y = cells[y] :: cells.drop (y + 1) :=
        List.drop_eq_getElem_cons hy
      have hsplit : cells.take y ++ cells[y] :: cells.drop (y + 1) = cells := by
        rw [← hdropy]
        exact List.take_append_drop y cells
      have hlentake : (cells.take y).length = y := by
        rw [List.length_take]
        omega
      by_cases hfull : rowFull (cells.getD y []) = true
      · rw [if_pos hfull]
        rw [hgetD] at hfull
        have herase : cells.eraseIdx y = cells.take y ++ cells.drop (y + 1) :=
          List.eraseIdx_eq_take_drop_succ cells y
        have hcount : cells.countP (fun r => rowFull r) =
            ((cells.take y).countP (fun r => rowFull r) +
              (cells.drop (y + 1)).countP (fun r => rowFull r)) + 1 := by
          conv_lhs => rw [← hsplit]
          rw [List.countP_append, List.countP_cons]
          simp [hfull]
          omega
        have hfilter : cells.filter (fun r => !rowFull r) =
            (cells.take y).filter (fun r => !rowFull r) ++
              (cells.drop (y + 1)).filter (fun r => !rowFull r) := by
          conv_lhs => rw [← hsplit]
          rw [List.filter_append, List.filter_cons]
          simp [hfull]
        have hlen2 : (emptyRow w :: cells.eraseIdx y).length = cells.length := by
          rw [List.length_cons, herase, List.length_append, hlentake,
            List.length_drop]
          omega
        have hdrop2 : ∀ r ∈ (emptyRow w :: cells.eraseIdx y).drop (y + 1),
            rowFull r = false := by
          intro r hr
          apply hdrop r
          have : (emptyRow w :: cells.eraseIdx y).drop (y + 1) =
              cells.drop (y + 1) := by
            rw [List.drop_succ_cons, herase, List.drop_left' hlentake]
          rwa [this] at hr
        have hcount2 : (emptyRow w :: cells.eraseIdx y).countP
            (fun r => rowFull r) =
            (cells.take y).countP (fun r => rowFull r) +
              (cells.drop (y + 1)).countP (fun r => rowFull r) := by
          rw [List.countP_cons, herase, List.countP_append]
          simp [rowFull_emptyRow w hw]
        have hih := ih (emptyRow w :: cells.eraseIdx y) y (acc + 1)
          (by omega)
          hdrop2
          (by simpa using rowFull_emptyRow w hw)
          (by omega)
        rw [hih]
        have hfilter2 : (emptyRow w :: cells.eraseIdx y).filter
            (fun r => !rowFull r) =
            emptyRow w :: ((cells.take y).filter (fun r => !rowFull r) ++
              (cells.drop (y + 1)).filter (fun r => !rowFull r)) := by
          rw [List.filter_cons, herase, List.filter_append]
          simp [rowFull_emptyRow w hw]
        rw [hcount2, hfilter2, hcount, hfilter]
        rw [Prod.mk.injEq]
        constructor
        · rw [List.replicate_succ' _ (emptyRow w)]
          simp
        · omega
      · rw [if_neg hfull]
        have hfull' : rowFull cells[y] = false := by
          rw [hgetD] at hfull
          exact Bool.not_eq_true _ ▸ eq_false_of_ne_true hfull
        have hdrop' : ∀ r ∈ cells.drop (y - 1 + 1), rowFull r = false := by
          have hyy : y - 1 + 1 = y := by omega
          rw [hyy, hdropy]
          intro r hr
          rcases List.mem_cons.mp hr with h | h
          · rw [h]
            exact hfull'
          · exact hdrop r h
        exact ih cells (y - 1) acc (by omega) hdrop' hhead (by omega)

/-! Claim theorems. -/

/-- C1 (amended): for every well-formed board (positive dimensions, one
row list per unit of height) whose TOP ROW IS NOT FULL, `clear_lines`
leaves no full line, returns exactly the number of previously full rows,
and shifts every surviving row down by the number of full rows below it.
(The scan of `clear_lines` stops at row index 1, so row 0 is exempted by
hypothesis; the counterexample shows the unrestricted claim fails.) -/
theorem clear_lines_spec (b : Board)
    (hlen : b.cells.length = b.height)
    (hwpos : 0 < b.width) (hhpos : 0 < b.height)
    (h0 : rowFull (b.cells.headD []) = false) :
    (b.clear_lines).1.get_full_lines = [] ∧
    (b.clear_lines).2 = b.get_full_lines.length ∧
    ∀ i, i < b.height → rowFull (b.cells.getD i []) = false →
      (b.clear_lines).1.cells.getD
          (i + (b.cells.drop (i + 1)).countP (fun r => rowFull r)) [] =
        b.cells.getD i [] := by
  have hpq : (fun a : Row => decide ¬rowFull a = true) = (fun r : Row => !rowFull r) := by
    funext a
    cases h : rowFull a <;> simp [h]
  have hchar := clearLoop_characterization b.width hwpos (b.height + b.height)
    b.cells (b.height - 1) 0
    (by omega)
    (by
      intro r hr
      have hdn : b.cells.drop (b.height - 1 + 1) = [] := by
        have : b.height - 1 + 1 = b.height := by omega
        rw [this, ← hlen, List.drop_length]
      rw [hdn] at hr
      simp at hr)
    h0
    (by
      have := List.countP_le_length (fun r : Row => rowFull r) (l := b.cells)
      omega)
  have hcl : b.clear_lines =
      ({ b with cells :=
          List.replicate (b.cells.countP fun r => rowFull r) (emptyRow b.width) ++
            b.cells.filter (fun r => !rowFull r) },
        b.cells.countP fun r => rowFull r) := by
    unfold Board.clear_lines
    dsimp only
    rw [hchar, Nat.zero_add]
  have hlenN : (List.replicate (b.cells.countP fun r => rowFull r) (emptyRow b.width) ++
      b.cells.filter (fun r => !rowFull r)).length = b.height := by
    rw [List.length_append, List.length_replicate, ← List.countP_eq_length_filter,
      ← hlen]
    have := List.length_eq_countP_add_countP (fun r : Row => rowFull r) b.cells
    rw [hpq] at this
    omega
  refine ⟨?_, ?_, ?_⟩
  · rw [hcl]
    unfold Board.get_full_lines
    rw [List.filter_eq_nil_iff]
    intro y hy
    have hylt : y < b.height := List.mem_range.mp hy
    rw [List.getD_eq_getElem _ [] (by rw [hlenN]; exact hylt)]
    have hmem := List.getElem_mem (l :=
      List.replicate (b.cells.countP fun r => rowFull r) (emptyRow b.width) ++
        b.cells.filter (fun r => !rowFull r)) (n := y)
      (by rw [hlenN]; exact hylt)
    rcases List.mem_append.mp hmem with h | h
    · rw [List.eq_of_mem_replicate h, rowFull_emptyRow b.width hwpos]
      simp
    · have := (List.mem_filter.mp h).2
      simp only [Bool.not_eq_true'] at this
      rw [this]
      simp
  · rw [hcl]
    unfold Board.get_full_lines
    rw [← List.countP_eq_length_filter, ← hlen, countP_range_getD]
  · intro i hi hnf
    have hilt : i < b.cells.length := by omega
    have hgetD : b.cells.getD i [] = b.cells[i] := List.getD_eq_getElem b.cells [] hilt
    have hM : rowFull b.cells[i] = false := by
      rw [hgetD] at hnf
      exact hnf
    have hdropy : b.cells.drop i = b.cells[i] :: b.cells.drop (i + 1) :=
      List.drop_eq_getElem_cons hilt
    have hsplit : b.cells.take i ++ b.cells[i] :: b.cells.drop (i + 1) = b.cells := by
      rw [← hdropy]
      exact List.take_append_drop i b.cells
    have hlentake : (b.cells.take i).length = i := by
      rw [List.length_take]
      omega
    have hcount : b.cells.countP (fun r => rowFull r) =
        (b.cells.take i).countP (fun r => rowFull r) +
          (b.cells.drop (i + 1)).countP (fun r => rowFull r) := by
      conv_lhs => rw [← hsplit]
      rw [List.countP_append, List.countP_cons]
      simp [hM]
    have hfilter : b.cells.filter (fun r => !rowFull r) =
        (b.cells.take i).filter (fun r => !rowFull r) ++
          b.cells[i] :: (b.cells.drop (i + 1)).filter (fun r => !rowFull r) := by
      conv_lhs => rw [← hsplit]
      rw [List.filter_append, List.filter_cons]
      simp [hM]
    have hTlen : ((b.cells.take i).filter (fun r => !rowFull r)).length =
        i - (b.cells.take i).countP (fun r => rowFull r) := by
      rw [← List.countP_eq_length_filter]
      have := List.length_eq_countP_add_countP (fun r : Row => rowFull r)
        (b.cells.take i)
      rw [hpq] at this
      omega
    have hcT : (b.cells.take i).countP (fun r => rowFull r) ≤ i := by
      have := List.countP_le_length (fun r : Row => rowFull r) (l := b.cells.take i)
      omega
    rw [hcl]
    show (List.replicate (b.cells.countP fun r => rowFull r) (emptyRow b.width) ++
        b.cells.filter (fun r => !rowFull r)).getD
        (i + (b.cells.drop (i + 1)).countP (fun r => rowFull r)) [] =
      b.cells.getD i []
    have hidx : i + (b.cells.drop (i + 1)).countP (fun r => rowFull r) =
        (List.replicate (b.cells.countP fun r => rowFull r)
          (emptyRow b.width)).length +
          ((b.cells.take i).filter (fun r => !rowFull r)).length := by
      rw [List.length_replicate, hTlen, hcount]
      omega
    rw [hidx, getD_append_offset, hfilter]
    have hoff := getD_append_offset ((b.cells.take i).filter (fun r => !rowFull r))
      (b.cells[i] :: (b.cells.drop (i + 1)).filter (fun r => !rowFull r)) 0 ([] : Row)
    simp only [Nat.add_zero] at hoff
    rw [hoff, List.getD_cons_zero, hgetD]

/-- The fully occupied standard row. -/
def rowFullTen : Row := List.replicate 10 (some TetriminoType.I)

/-- The empty standard row. -/
def emptyRowTen : Row := List.replicate 10 none

/-- A standard board whose only full row is row 0. -/
def boardRow0 : Board :=
  { width := 10, height := 20, cells := rowFullTen :: List.replicate 19 emptyRowTen }

/-- A standard board whose only full row is the bottom row 19. -/
def boardBottomFull : Board :=
  { width := 10, height := 20, cells := List.replicate 19 emptyRowTen ++ [rowFullTen] }

/-- C1 counterexample: on a board whose only full row is row 0,
`clear_lines` removes nothing and returns 0, yet one row was full before
the call and `get_full_lines` still reports row 0 afterwards — the scan
loop never examines row index 0. -/
theorem clear_lines_row_zero_counterexample :
    boardRow0.get_full_lines = [0] ∧
    (boardRow0.clear_lines).2 = 0 ∧
    (boardRow0.clear_lines).1.get_full_lines = [0] := by
  decide

/-- C1 witness: the amended clear-lines specification at a concrete board
with a full bottom row. -/
theorem clear_lines_spec_witness :
    (boardBottomFull.clear_lines).1.get_full_lines = [] ∧
    (boardBottomFull.clear_lines).2 = boardBottomFull.get_full_lines.length ∧
    ∀ i, i < boardBottomFull.height →
      rowFull (boardBottomFull.cells.getD i []) = false →
      (boardBottomFull.clear_lines).1.cells.getD
          (i + (boardBottomFull.cells.drop (i + 1)).countP (fun r => rowFull r)) [] =
        boardBottomFull.cells.getD i [] :=
  clear_lines_spec boardBottomFull (by decide) (by decide) (by decide) (by decide)

/-- C10: a lock that clears zero lines resets `combo_count` to 0 but
leaves `back_to_back_active` unchanged, so the back-to-back chain
survives non-clearing locks. -/
theorem update_score_zero_lines_preserves_back_to_back (gs : GameState) :
    (gs.update_score 0).combo_count = 0 ∧
    (gs.update_score 0).back_to_back_active = gs.back_to_back_active :=
  ⟨rfl, rfl⟩

/-- C9: `move_piece` commits the (wrapping `i32`) translation and returns
`true` exactly when the translated position is valid; an invalid
translation and a missing current piece both return `false` and leave
the whole state unchanged. -/
theorem move_piece_spec (gs : GameState) (dx dy : Int) :
    (gs.current_piece = none → gs.move_piece dx dy = (gs, false)) ∧
    ∀ p : Tetrimino, gs.current_piece = some p →
      -2147483648 ≤ p.x → p.x < 2147483648 →
      -2147483648 ≤ p.y → p.y < 2147483648 →
      (gs.board.is_valid_position (movedPiece p dx dy) = true →
        gs.move_piece dx dy =
          ({ gs with current_piece := some (movedPiece p dx dy) }, true)) ∧
      (gs.board.is_valid_position (movedPiece p dx dy) = false →
        gs.move_piece dx dy = (gs, false)) := by
  constructor
  · intro h
    unfold GameState.move_piece
    rw [h]
  · intro p hp hx1 hx2 hy1 hy2
    constructor
    · intro hv
      unfold GameState.move_piece
      rw [hp]
      simp [hv]
    · intro hv
      unfold GameState.move_piece
      rw [hp]
      simp only [hv, Bool.not_false, if_pos]
      have hx : wrap32 (wrap32 (p.x + dx) - dx) = p.x := wrap32_add_sub_self p.x dx hx1 hx2
      have hy : wrap32 (wrap32 (p.y + dy) - dy) = p.y := wrap32_add_sub_self p.y dy hy1 hy2
      simp only [movedPiece]
      rw [hx, hy]
      rw [GameState.set_current_self gs p hp]

/-- C9 witness: a concrete valid move commits the translation. -/
theorem move_piece_spec_witness :
    gsRot3.move_piece 1 0 =
      ({ gsRot3 with current_piece := some (movedPiece pieceT3 1 0) }, true) :=
  ((move_piece_spec gsRot3 1 0).2 pieceT3 rfl (by decide) (by decide) (by decide)
    (by decide)).1 (by decide)

/-- C2 counterexample: with hold enabled, a current T piece and an I
piece already held, a second consecutive `hold_piece` call takes effect
and swaps the piece back (current kind returns to T, held returns to I),
contradicting the claim that hold works at most once per piece life. -/
theorem hold_piece_double_swap_counterexample :
    gsHold.hold_piece.held_piece = some TetriminoType.T ∧
    gsHold.hold_piece.hold_piece ≠ gsHold.hold_piece ∧
    gsHold.hold_piece.hold_piece.current_piece = some (Tetrimino.new TetriminoType.T) ∧
    gsHold.hold_piece.hold_piece.held_piece = some TetriminoType.I := by
  decide

/-- C2 (amended): `hold_piece` takes effect on every call made with hold
enabled and a current piece present — there is no once-per-piece-life
restriction.  With a piece already held it swaps unconditionally, so two
consecutive calls restore the original kind (at spawn position and
rotation) and the original held kind. -/
theorem hold_piece_swap_unconditional (gs : GameState) (p : Tetrimino)
    (k : TetriminoType) (hh : gs.config.enable_hold = true)
    (hc : gs.current_piece = some p) (hk : gs.held_piece = some k) :
    gs.hold_piece.current_piece = some (Tetrimino.new k) ∧
    gs.hold_piece.held_piece = some p.kind ∧
    gs.hold_piece.hold_piece.current_piece = some (Tetrimino.new p.kind) ∧
    gs.hold_piece.hold_piece.held_piece = some k := by
  simp [GameState.hold_piece, hh, hc, hk, Tetrimino.new]

/-- C2 witness: the amended swap behaviour at a concrete state. -/
theorem hold_piece_swap_unconditional_witness :
    gsHold.hold_piece.current_piece = some (Tetrimino.new TetriminoType.I) ∧
    gsHold.hold_piece.held_piece = some pieceT2.kind ∧
    gsHold.hold_piece.hold_piece.current_piece = some (Tetrimino.new pieceT2.kind) ∧
    gsHold.hold_piece.hold_piece.held_piece = some TetriminoType.I :=
  hold_piece_swap_unconditional gsHold pieceT2 TetriminoType.I rfl rfl rfl

/-- C3 counterexample: rotating a T piece clockwise from rotation 3 in
the open field stores rotation 4, not `(3 + 1) % 4 = 0`, so the stored
rotation field does not stay in `0..3`. -/
theorem rotate_piece_rotation_counterexample :
    (gsRot3.rotate_piece true).current_piece =
      some { kind := TetriminoType.T, x := 4, y := 5, rotation := 4 } ∧
    (3 + 1) % 4 = 0 ∧ (4 : Nat) ≠ 0 ∧ ¬ (4 : Nat) ≤ 3 := by
  decide

/-- C3 (amended): `rotate_piece` computes the new rotation as `old + 1`
(clockwise) or `old - 1` (counter-clockwise) with `usize` wraparound at
`2^64` and no reduction modulo 4, applying it in place when the rotation
is accepted and restoring the old piece otherwise; the stored rotation
may leave `0..3`, and block lookup interprets it modulo 4. -/
theorem rotate_piece_rotation_update (gs : GameState) (p : Tetrimino)
    (hp : gs.current_piece = some p) :
    ((gs.rotate_piece true).current_piece.map Tetrimino.rotation =
        some ((p.rotation + 1) % U64) ∨
      (gs.rotate_piece true).current_piece = some p) ∧
    ((gs.rotate_piece false).current_piece.map Tetrimino.rotation =
        some ((p.rotation + (U64 - 1)) % U64) ∨
      (gs.rotate_piece false).current_piece = some p) ∧
    ∀ t : Tetrimino,
      Tetrimino.get_blocks { t with rotation := t.rotation % 4 } = t.get_blocks := by
  have key : ∀ cw : Bool,
      (gs.rotate_piece cw).current_piece.map Tetrimino.rotation =
        some (rotTarget cw p.rotation) ∨
      (gs.rotate_piece cw).current_piece = some p := by
    intro cw
    unfold GameState.rotate_piece
    simp only [hp]
    by_cases hv :
        gs.board.is_valid_position { p with rotation := rotTarget cw p.rotation } = true
    · rw [if_pos hv]
      left
      rfl
    · rw [if_neg hv]
      rcases hfind : (GameState.get_wall_kicks p.kind p.rotation
            (rotTarget cw p.rotation)).find?
          (fun d => gs.board.is_valid_position (kickTry p cw d)) with _ | d
      · right
        rfl
      · left
        rfl
  refine ⟨?_, ?_, fun t => get_blocks_mod_four t⟩
  · rw [← rotTarget_true]
    exact key true
  · rw [← rotTarget_false]
    exact key false

lemma update_level_fixed_goal_score (gs : GameState) (l : Nat) :
    (gs.update_level_fixed_goal l).score = gs.score := by
  unfold GameState.update_level_fixed_goal
  split <;> rfl

lemma update_level_variable_goal_score (gs : GameState) (l : Nat) (ts : Bool) :
    (gs.update_level_variable_goal l ts).score = gs.score := by
  unfold GameState.update_level_variable_goal
  repeat' split
  all_goals rfl

lemma get_wall_kicks_head (pt : TetriminoType) (f t : Nat) :
    (GameState.get_wall_kicks pt f t).head? = some (0, 0) := by
  have hf : f % 4 = 0 ∨ f % 4 = 1 ∨ f % 4 = 2 ∨ f % 4 = 3 := by omega
  have ht : t % 4 = 0 ∨ t % 4 = 1 ∨ t % 4 = 2 ∨ t % 4 = 3 := by omega
  unfold GameState.get_wall_kicks
  cases pt <;> rcases hf with h | h | h | h <;> rcases ht with h2 | h2 | h2 | h2 <;>
    simp [h, h2]

lemma get_wall_kicks_cons (pt : TetriminoType) (f t : Nat) :
    ∃ tl, GameState.get_wall_kicks pt f t = (0, 0) :: tl := by
  have hh := get_wall_kicks_head pt f t
  rcases hhead : GameState.get_wall_kicks pt f t with _ | ⟨a, tl⟩
  · rw [hhead] at hh
    simp at hh
  · rw [hhead] at hh
    simp only [List.head?_cons, Option.some.injEq] at hh
    exact ⟨tl, by rw [hh]⟩

/-- C4: wall-kick resolution is a first-success scan of a fixed table:
the kick list always starts with `(0,0)`, the accepted result is exactly
the first table offset whose kicked position the board validates
(`List.find?`), and when no offset validates the whole state — rotation,
`x` and `y` included — is exactly the pre-attempt state. -/
theorem rotate_piece_kick_resolution (gs : GameState) (p : Tetrimino) (cw : Bool)
    (hp : gs.current_piece = some p)
    (hx1 : -2147483648 ≤ p.x) (hx2 : p.x < 2147483648)
    (hy1 : -2147483648 ≤ p.y) (hy2 : p.y < 2147483648) :
    (GameState.get_wall_kicks p.kind p.rotation (rotTarget cw p.rotation)).head? =
      some (0, 0) ∧
    (∀ d : Int × Int,
      (GameState.get_wall_kicks p.kind p.rotation (rotTarget cw p.rotation)).find?
          (fun e => gs.board.is_valid_position (kickTry p cw e)) = some d →
      (gs.rotate_piece cw).current_piece = some (kickTry p cw d)) ∧
    ((GameState.get_wall_kicks p.kind p.rotation (rotTarget cw p.rotation)).find?
          (fun e => gs.board.is_valid_position (kickTry p cw e)) = none →
      gs.rotate_piece cw = gs) := by
  have h00 : kickTry p cw (0, 0) = { p with rotation := rotTarget cw p.rotation } := by
    unfold kickTry
    rw [show p.x + (0, 0).1 = p.x by ring, show p.y + (0, 0).2 = p.y by ring,
      wrap32_self p.x hx1 hx2, wrap32_self p.y hy1 hy2]
  refine ⟨get_wall_kicks_head p.kind p.rotation (rotTarget cw p.rotation), ?_, ?_⟩
  · intro d hd
    unfold GameState.rotate_piece
    simp only [hp]
    by_cases hv :
        gs.board.is_valid_position { p with rotation := rotTarget cw p.rotation } = true
    · obtain ⟨tl, htl⟩ := get_wall_kicks_cons p.kind p.rotation (rotTarget cw p.rotation)
      rw [htl] at hd
      rw [List.find?_cons_of_pos _ (by rw [h00]; exact hv)] at hd
      rw [if_pos hv]
      simp only [Option.some.injEq] at hd
      rw [← hd, h00]
    · rw [if_neg hv]
      rw [hd]
  · intro hnone
    unfold GameState.rotate_piece
    simp only [hp]
    by_cases hv :
        gs.board.is_valid_position { p with rotation := rotTarget cw p.rotation } = true
    · obtain ⟨tl, htl⟩ := get_wall_kicks_cons p.kind p.rotation (rotTarget cw p.rotation)
      rw [htl] at hnone
      rw [List.find?_cons_of_pos _ (by rw [h00]; exact hv)] at hnone
      exact absurd hnone (by simp)
    · rw [if_neg hv]
      rw [hnone]
      exact GameState.set_current_self gs p hp

/-- C4 witness: kick resolution at a concrete open-field state, where the
first table entry `(0,0)` already validates. -/
theorem rotate_piece_kick_resolution_witness :
    (GameState.get_wall_kicks pieceT3.kind pieceT3.rotation
        (rotTarget true pieceT3.rotation)).head? = some (0, 0) ∧
    (∀ d : Int × Int,
      (GameState.get_wall_kicks pieceT3.kind pieceT3.rotation
          (rotTarget true pieceT3.rotation)).find?
          (fun e => gsRot3.board.is_valid_position (kickTry pieceT3 true e)) = some d →
      (gsRot3.rotate_piece true).current_piece = some (kickTry pieceT3 true d)) ∧
    ((GameState.get_wall_kicks pieceT3.kind pieceT3.rotation
          (rotTarget true pieceT3.rotation)).find?
          (fun e => gsRot3.board.is_valid_position (kickTry pieceT3 true e)) = none →
      gsRot3.rotate_piece true = gsRot3) :=
  rotate_piece_kick_resolution gsRot3 pieceT3 true rfl (by decide) (by decide)
    (by decide) (by decide)

lemma allKinds_nodup : allKinds.Nodup := by decide

lemma perm_allKinds_nodup {s : List TetriminoType} (h : s.Perm allKinds) :
    s.Nodup := h.nodup_iff.mpr allKinds_nodup

lemma refill_bag_inv (gs : GameState)
    (hsup : ∀ s ∈ gs.shuffle_supply, s.Perm allKinds) :
    (gs.refill_bag).bag.Nodup ∧
    ∀ s ∈ (gs.refill_bag).shuffle_supply, s.Perm allKinds := by
  unfold GameState.refill_bag
  rcases h : gs.shuffle_supply with _ | ⟨s, rest⟩
  · exact ⟨allKinds_nodup, by rw [h] at hsup; simp at hsup ⊢⟩
  · rw [h] at hsup
    refine ⟨perm_allKinds_nodup (hsup s (by simp)), ?_⟩
    intro u hu
    exact hsup u (by simp [hu])

lemma populate_step_bag_inv (gs : GameState)
    (hsup : ∀ s ∈ gs.shuffle_supply, s.Perm allKinds) (hbag : gs.bag.Nodup) :
    (gs.populate_step).bag.Nodup ∧
    ∀ s ∈ (gs.populate_step).shuffle_supply, s.Perm allKinds := by
  have hdrop : ∀ l : List TetriminoType, l.Nodup → l.dropLast.Nodup :=
    fun l h => h.sublist (List.dropLast_sublist l)
  unfold GameState.populate_step
  by_cases hb : gs.bag.isEmpty
  · obtain ⟨r1, r2⟩ := refill_bag_inv gs hsup
    obtain ⟨q1, q2⟩ := refill_bag_inv gs.refill_bag r2
    simp only [hb, if_true]
    split
    · exact ⟨hdrop _ r1, r2⟩
    · split
      · exact ⟨hdrop _ q1, q2⟩
      · exact ⟨q1, q2⟩
  · obtain ⟨r1, r2⟩ := refill_bag_inv gs hsup
    simp only [hb, if_false]
    split
    · exact ⟨hdrop _ hbag, hsup⟩
    · split
      · exact ⟨hdrop _ r1, r2⟩
      · exact ⟨r1, r2⟩

lemma populateLoop_bag_inv (fuel : Nat) (gs : GameState)
    (hsup : ∀ s ∈ gs.shuffle_supply, s.Perm allKinds) (hbag : gs.bag.Nodup) :
    (GameState.populateLoop fuel gs).bag.Nodup := by
  induction fuel generalizing gs with
  | zero => exact hbag
  | succ n ih =>
    unfold GameState.populateLoop
    split
    · obtain ⟨h1, h2⟩ := populate_step_bag_inv gs hsup hbag
      exact ih gs.populate_step h2 h1
    · exact hbag

lemma bagPops_length_eq_reverse (l : List TetriminoType) :
    bagPops l.length l = l.reverse := by
  induction l using List.reverseRecOn with
  | nil => rfl
  | append_singleton xs x ih =>
    rw [List.length_append]
    show bagPops (xs.length + 1) (xs ++ [x]) = (xs ++ [x]).reverse
    unfold bagPops
    rw [List.getLast?_concat, List.dropLast_concat, ih]
    simp

lemma allKinds_count (k : TetriminoType) : allKinds.count k = 1 := by
  cases k <;> decide

/-- C7: the bag holds each kind at most once (`Nodup` is preserved by the
queue-refill loop for every shuffle outcome); a `populate_next_pieces`
iteration refills the bag exactly when it is empty (a non-empty bag is
only popped, an empty bag is replaced by the next shuffle before the
pop); and 7 pops from a bag boundary (a bag that is a permutation of the
7 kinds) yield every kind exactly once. -/
theorem bag_seven_invariant (gs : GameState)
    (hsup : ∀ s ∈ gs.shuffle_supply, s.Perm allKinds)
    (hbag : gs.bag.Nodup) :
    (gs.populate_next_pieces).bag.Nodup ∧
    (gs.bag ≠ [] →
      (gs.populate_step).shuffle_supply = gs.shuffle_supply ∧
      (gs.populate_step).bag = gs.bag.dropLast) ∧
    (∀ s rest, gs.bag = [] → gs.shuffle_supply = s :: rest → s ≠ [] →
      (gs.populate_step).bag = s.dropLast ∧
      (gs.populate_step).shuffle_supply = rest) ∧
    (∀ bag2 : List TetriminoType, bag2.Perm allKinds →
      ∀ k : TetriminoType, (bagPops 7 bag2).count k = 1) := by
  refine ⟨populateLoop_bag_inv 7 gs hsup hbag, ?_, ?_, ?_⟩
  · intro hne
    unfold GameState.populate_step
    rw [if_neg (by simp [List.isEmpty_iff, hne])]
    dsimp only
    rcases hlast : gs.bag.getLast? with _ | x
    · exact absurd (List.getLast?_eq_none_iff.mp hlast) hne
    · exact ⟨rfl, rfl⟩
  · intro s rest hbe hsupply hsne
    unfold GameState.populate_step GameState.refill_bag
    rw [if_pos (by simp [hbe])]
    rw [hsupply]
    dsimp only
    rcases hlast : s.getLast? with _ | x
    · exact absurd (List.getLast?_eq_none_iff.mp hlast) hsne
    · exact ⟨rfl, rfl⟩
  · intro bag2 hperm k
    have hlen : bag2.length = 7 := hperm.length_eq
    have h7 : bagPops 7 bag2 = bag2.reverse := by
      rw [← hlen]
      exact bagPops_length_eq_reverse bag2
    rw [h7, List.count_reverse, hperm.count_eq, allKinds_count]

/-- C7 witness: the bag invariants at a concrete state with a queued
shuffle. -/
theorem bag_seven_invariant_witness :
    (testState.populate_next_pieces).bag.Nodup ∧
    (testState.bag ≠ [] →
      (testState.populate_step).shuffle_supply = testState.shuffle_supply ∧
      (testState.populate_step).bag = testState.bag.dropLast) ∧
    (∀ s rest, testState.bag = [] → testState.shuffle_supply = s :: rest → s ≠ [] →
      (testState.populate_step).bag = s.dropLast ∧
      (testState.populate_step).shuffle_supply = rest) ∧
    (∀ bag2 : List TetriminoType, bag2.Perm allKinds →
      ∀ k : TetriminoType, (bagPops 7 bag2).count k = 1) :=
  bag_seven_invariant testState (by decide) (by decide)

lemma refill_bag_frame (gs : GameState) :
    (gs.refill_bag).board = gs.board ∧
    (gs.refill_bag).current_piece = gs.current_piece ∧
    (gs.refill_bag).game_over = gs.game_over := by
  unfold GameState.refill_bag
  split <;> exact ⟨rfl, rfl, rfl⟩

lemma populate_step_frame (gs : GameState) :
    (gs.populate_step).board = gs.board ∧
    (gs.populate_step).current_piece = gs.current_piece ∧
    (gs.populate_step).game_over = gs.game_over := by
  unfold GameState.populate_step
  obtain ⟨h1, h2, h3⟩ := refill_bag_frame gs
  by_cases hb : gs.bag.isEmpty
  · simp only [hb, if_true]
    obtain ⟨g1, g2, g3⟩ := refill_bag_frame gs.refill_bag
    repeat' split
    all_goals simp_all
  · simp only [hb, if_false]
    obtain ⟨g1, g2, g3⟩ := refill_bag_frame gs
    repeat' split
    all_goals simp_all

lemma populateLoop_frame (fuel : Nat) (gs : GameState) :
    (GameState.populateLoop fuel gs).board = gs.board ∧
    (GameState.populateLoop fuel gs).current_piece = gs.current_piece ∧
    (GameState.populateLoop fuel gs).game_over = gs.game_over := by
  induction fuel generalizing gs with
  | zero => exact ⟨rfl, rfl, rfl⟩
  | succ n ih =>
    unfold GameState.populateLoop
    split
    · obtain ⟨h1, h2, h3⟩ := populate_step_frame gs
      obtain ⟨g1, g2, g3⟩ := ih gs.populate_step
      exact ⟨g1.trans h1, g2.trans h2, g3.trans h3⟩
    · exact ⟨rfl, rfl, rfl⟩

lemma populate_next_pieces_frame (gs : GameState) :
    (gs.populate_next_pieces).board = gs.board ∧
    (gs.populate_next_pieces).current_piece = gs.current_piece ∧
    (gs.populate_next_pieces).game_over = gs.game_over :=
  populateLoop_frame 7 gs

/-- C8: `spawn_piece` constructs the new current piece at origin `(0,0)`
with rotation 0 and sets `game_over` to true exactly when that spawn
position is invalid (the flag afterwards is the old flag OR-ed with the
invalidity); every piece kind spawned onto an empty 10-wide by 20-high
board is valid, so such a spawn never sets `game_over`. -/
theorem spawn_piece_spec (gs : GameState) (k : TetriminoType)
    (hk : gs.next_pieces.head? = some k) :
    (gs.spawn_piece).current_piece = some (Tetrimino.new k) ∧
    (gs.spawn_piece).game_over =
      (gs.game_over || !(gs.board.is_valid_position (Tetrimino.new k))) ∧
    (∀ kind : TetriminoType,
      (Board.new 10 20).is_valid_position (Tetrimino.new kind) = true) ∧
    (gs.board = Board.new 10 20 → gs.game_over = false →
      (gs.spawn_piece).game_over = false) := by
  have hall : ∀ kind : TetriminoType,
      (Board.new 10 20).is_valid_position (Tetrimino.new kind) = true := by
    intro kind
    cases kind <;> decide
  obtain ⟨hb, hcur, hgo⟩ := populate_next_pieces_frame
    { gs with current_piece := some (Tetrimino.new k),
              next_pieces := gs.next_pieces.tail }
  have h12 : (gs.spawn_piece).current_piece = some (Tetrimino.new k) ∧
      (gs.spawn_piece).game_over =
        (gs.game_over || !(gs.board.is_valid_position (Tetrimino.new k))) := by
    unfold GameState.spawn_piece
    simp only [hk]
    cases hv : gs.board.is_valid_position (Tetrimino.new k)
    · constructor
      · simp [hcur, hb, hv]
      · simp [hcur, hb, hgo, hv]
    · constructor
      · simp [hcur, hb, hv]
      · simp [hcur, hb, hgo, hv]
  refine ⟨h12.1, h12.2, hall, fun hbd hfl => ?_⟩
  rw [h12.2, hbd, hall k, hfl]
  rfl

/-- C8 witness: spawning the queued I piece on the empty standard board
places it at the origin and does not end the game. -/
theorem spawn_piece_spec_witness :
    (testState.spawn_piece).current_piece = some (Tetrimino.new TetriminoType.I) ∧
    (testState.spawn_piece).game_over =
      (testState.game_over ||
        !(testState.board.is_valid_position (Tetrimino.new TetriminoType.I))) ∧
    (∀ kind : TetriminoType,
      (Board.new 10 20).is_valid_position (Tetrimino.new kind) = true) ∧
    (testState.board = Board.new 10 20 → testState.game_over = false →
      (testState.spawn_piece).game_over = false) :=
  spawn_piece_spec testState TetriminoType.I rfl

/-- C5: a clearing lock adds
`(base + tspin + combo_count * 50 + back-to-back bonus) * level` to the
score, computed with the combo count before its increment and the level
before leveling; in particular clears of 1/2/3/4 lines at level 1 with
no combo, no back-to-back and no T-spin add exactly 100/300/500/800.
(The overflow bounds keep the wrapping `u32`/`u64` arithmetic exact.) -/
theorem update_score_formula (gs : GameState) (lines : Nat) (h1 : 1 ≤ lines)
    (hc : gs.combo_count * 50 < U32)
    (hs : gs.score + specScoreDelta gs lines < U64) :
    (gs.update_score lines).score = gs.score + specScoreDelta gs lines ∧
    (gs.level = 1 → gs.combo_count = 0 → gs.back_to_back_active = false →
      ((lines = 1 → (gs.update_score lines).score = gs.score + 100) ∧
       (lines = 2 → (gs.update_score lines).score = gs.score + 300) ∧
       (lines = 3 → (gs.update_score lines).score = gs.score + 500) ∧
       (lines = 4 → (gs.update_score lines).score = gs.score + 800))) := by
  have hz : ¬ lines = 0 := by omega
  have hcombo : (if gs.combo_count > 0 then gs.combo_count * 50 % U32 else 0) =
      gs.combo_count * 50 := by
    by_cases h : gs.combo_count = 0
    · simp [h]
    · rw [if_pos (by omega)]
      exact Nat.mod_eq_of_lt hc
  have hmain : (gs.update_score lines).score = gs.score + specScoreDelta gs lines := by
    unfold GameState.update_score
    rw [if_neg hz]
    simp only [GameState.check_tspin, GameState.compute_awarded_lines,
      Bool.false_eq_true, if_false, Bool.or_false, Bool.and_false, add_zero, hcombo]
    split
    · rw [update_level_variable_goal_score]
      show (gs.score + _) % U64 = _
      rcases Nat.lt_or_ge 0 1 with _ | _
      all_goals
        rw [Nat.mod_eq_of_lt]
        · unfold specScoreDelta
          cases hb : gs.back_to_back_active <;> by_cases h4 : lines = 4 <;>
            simp [hb, h4]
        · unfold specScoreDelta at hs
          cases hb : gs.back_to_back_active <;> by_cases h4 : lines = 4 <;>
            simp [hb, h4] at hs ⊢ <;> omega
    · rw [update_level_fixed_goal_score]
      show (gs.score + _) % U64 = _
      rcases Nat.lt_or_ge 0 1 with _ | _
      all_goals
        rw [Nat.mod_eq_of_lt]
        · unfold specScoreDelta
          cases hb : gs.back_to_back_active <;> by_cases h4 : lines = 4 <;>
            simp [hb, h4]
        · unfold specScoreDelta at hs
          cases hb : gs.back_to_back_active <;> by_cases h4 : lines = 4 <;>
            simp [hb, h4] at hs ⊢ <;> omega
  refine ⟨hmain, ?_⟩
  intro hl hc0 hb0
  refine ⟨?_, ?_, ?_, ?_⟩ <;> intro hline <;> rw [hmain] <;>
    simp [specScoreDelta, hl, hc0, hb0, hline, baseScore]

/-- C5 witness: a 4-line clear at level 1 with no combo and no
back-to-back adds exactly 800 points. -/
theorem update_score_formula_witness :
    (testState.update_score 4).score = testState.score + 800 :=
  (((update_score_formula testState 4 (by decide) (by decide)
    (by decide)).2 rfl rfl rfl).2.2.2) rfl

/-- C6: under the fixed-goal strategy, cleared lines are subtracted from
`lines_until_next_level`; when the subtraction would reach zero or below
the level advances by exactly 1 and the counter resets to
`lines_per_level` minus the overflow, otherwise the level is unchanged.
(The `u32` bounds keep the wrapping arithmetic in its exact range.) -/
theorem update_level_fixed_goal_spec (gs : GameState) (lines : Nat)
    (hlpl : gs.config.lines_per_level < U32) (hlvl : gs.level + 1 < U32) :
    (lines < gs.lines_until_next_level →
      (gs.update_level_fixed_goal lines).level = gs.level ∧
      (gs.update_level_fixed_goal lines).lines_until_next_level =
        gs.lines_until_next_level - lines) ∧
    (gs.lines_until_next_level ≤ lines →
      lines - gs.lines_until_next_level ≤ gs.config.lines_per_level →
      (gs.update_level_fixed_goal lines).level = gs.level + 1 ∧
      (gs.update_level_fixed_goal lines).lines_until_next_level =
        gs.config.lines_per_level - (lines - gs.lines_until_next_level)) := by
  constructor
  · intro h
    unfold GameState.update_level_fixed_goal
    rw [if_neg (by omega)]
    exact ⟨rfl, rfl⟩
  · intro h hov
    unfold GameState.update_level_fixed_goal
    rw [if_pos h]
    constructor
    · show (gs.level + 1) % U32 = gs.level + 1
      exact Nat.mod_eq_of_lt hlvl
    · show subU32 gs.config.lines_per_level (lines - gs.lines_until_next_level) =
        gs.config.lines_per_level - (lines - gs.lines_until_next_level)
      simp only [subU32, U32] at *
      omega

/-- C6 witness: clearing 15 lines with 10 still required at
`lines_per_level = 10` advances the level to 2 and resets the counter
to 5. -/
theorem update_level_fixed_goal_spec_witness :
    (testState.update_level_fixed_goal 15).level = testState.level + 1 ∧
    (testState.update_level_fixed_goal 15).lines_until_next_level =
      testState.config.lines_per_level - (15 - testState.lines_until_next_level) :=
  (update_level_fixed_goal_spec testState 15 (by decide) (by decide)).2
    (by decide) (by decide)

/-- C3 witness: the amended rotation update at a concrete state. -/
theorem rotate_piece_rotation_update_witness :
    ((gsRot3.rotate_piece true).current_piece.map Tetrimino.rotation =
        some ((pieceT3.rotation + 1) % U64) ∨
      (gsRot3.rotate_piece true).current_piece = some pieceT3) ∧
    ((gsRot3.rotate_piece false).current_piece.map Tetrimino.rotation =
        some ((pieceT3.rotation + (U64 - 1)) % U64) ∨
      (gsRot3.rotate_piece false).current_piece = some pieceT3) ∧
    ∀ t : Tetrimino,
      Tetrimino.get_blocks { t with rotation := t.rotation % 4 } = t.get_blocks :=
  rotate_piece_rotation_update gsRot3 pieceT3 rfl

end VibeTetris
